import Mathlib

/-!
Verification development for the SpecUtils spectroscopy data model: the
canonical measurement record, the energy-calibration abstraction, the
spectrum-file container with its derived indices, the summation engine and
the N42-2012 XML codec.  The compiled C++ core of the repository is not part
of the staged sources (only the Python binding examples and tests are), so
the definitions below are modelled from the specification; each such
definition carries a doc comment saying so.
-/

namespace SpecUtils

/-- Modelled from the spec: the source-type enumeration of a measurement
record, a closed enumeration {Background, Foreground, Calibration,
IntrinsicActivity, Unknown}. -/
inductive SourceType
| background
| foreground
| calibration
| intrinsicActivity
| unknownSource
deriving DecidableEq

/-- Modelled from the spec: occupancy status of a measurement record. -/
inductive OccupancyStatus
| notOccupied
| occupied
| unknownStatus
deriving DecidableEq

/-- Modelled from the spec: the closed enumeration of known detector models
stored at file level (the Python bindings expose values such as
DetectiveEx100). -/
inductive DetectorType
| detectiveEx100
| detectiveEx
| identiFinder
| unknownDetector
deriving DecidableEq

/-- Modelled from the spec: the error taxonomy of section 7. -/
inductive SpecError
| invalidCalibration
| dimensionMismatch
| channelCountMismatch
| duplicateRecordKey
| formatMismatch
| unrecognizedFormat
| encodeError (msg : String)
| emptySelection
deriving DecidableEq

/-- Modelled from the spec: the variant over energy-calibration kinds:
polynomial coefficients, full-range-fraction coefficients, or an explicit
lower-channel-energy sequence. -/
inductive EnergyCalKind
| polynomial (coefficients : List ℚ)
| fullRangeFraction (coefficients : List ℚ)
| lowerChannelEnergy (energies : List ℚ)
deriving DecidableEq

/-- Modelled from the spec: an energy calibration is a kind, a channel count
fixed at construction, and an optional ordered list of (energy, deviation)
pairs. -/
structure EnergyCalibration where
  kind : EnergyCalKind
  numChannels : Nat
  deviationPairs : List (ℚ × ℚ)
deriving DecidableEq

/-- Horner evaluation of a polynomial given by its coefficient list
(constant term first), as the spec's energy(channel) = sum of c_i *
channel^i. -/
def polyEval : List ℚ → ℚ → ℚ
| [], _ => 0
| c :: rest, x => c + x * polyEval rest x

/-- Modelled from the spec: the deviation-pair correction at a given base
energy: linear interpolation between neighbouring pairs, flat (clamped)
beyond the first and last pair, zero when there are no pairs. -/
def devOffset : List (ℚ × ℚ) → ℚ → ℚ
| [], _ => 0
| [p], _ => p.2
| p :: q :: rest, e =>
  if e ≤ p.1 then p.2
  else if e ≤ q.1 then p.2 + (q.2 - p.2) * (e - p.1) / (q.1 - p.1)
  else devOffset (q :: rest) e

/-- Modelled from the spec: deviation pairs form a piecewise-linear
correction added to the base calibration's energy output. -/
def applyDeviation (dps : List (ℚ × ℚ)) (e : ℚ) : ℚ := e + devOffset dps e

/-- Modelled from the spec: the energy at a (possibly fractional) channel of
a lower-channel-energy calibration, interpolating linearly inside each
channel and extending the first segment below channel zero. -/
def lceEnergy : List ℚ → ℚ → ℚ
| [], _ => 0
| [e0], _ => e0
| e0 :: e1 :: rest, x =>
  if x ≤ 1 then e0 + x * (e1 - e0)
  else lceEnergy (e1 :: rest) (x - 1)

/-- Modelled from the spec: the base (deviation-free) energy of a channel:
polynomial evaluation, full-range-fraction evaluation at channel / channel
count, or lower-channel-energy interpolation. -/
def baseEnergy (cal : EnergyCalibration) (x : ℚ) : ℚ :=
match cal.kind with
| .polynomial cs => polyEval cs x
| .fullRangeFraction cs => polyEval cs (x / (cal.numChannels : ℚ))
| .lowerChannelEnergy es => lceEnergy es x

/-- Modelled from the spec: channelToEnergy is the base energy corrected by
the deviation pairs. -/
def channelToEnergy (cal : EnergyCalibration) (x : ℚ) : ℚ :=
  applyDeviation cal.deviationPairs (baseEnergy cal x)

/-- Bisection solver used to invert the channel-to-energy map: k halving
steps of the bracket [lo, hi] around the requested energy e. -/
def bisect (g : ℚ → ℚ) (e : ℚ) : ℚ → ℚ → Nat → ℚ
| lo, hi, 0 => (lo + hi) / 2
| lo, hi, Nat.succ k =>
  let mid := (lo + hi) / 2
  if g mid < e then bisect g e mid hi k
  else if e < g mid then bisect g e lo mid k
  else mid

/-- Modelled from the spec: energyToChannel returns the (possibly
fractional) channel whose energy is the given one; the core's
floating-point numeric inversion is modelled as 64 bisection steps over the
calibration's channel range, which is exact to far below floating-point
tolerance for any monotonic calibration. -/
def energyToChannel (cal : EnergyCalibration) (e : ℚ) : ℚ :=
  bisect (channelToEnergy cal) e 0 (cal.numChannels : ℚ) 64

/-- True when the deviation pairs are sorted (non-decreasing) by energy. -/
def devPairsSorted : List (ℚ × ℚ) → Bool
| [] => true
| [_] => true
| p :: q :: rest => decide (p.1 ≤ q.1) && devPairsSorted (q :: rest)

/-- True when an explicit lower-channel-energy list is strictly
ascending. -/
def strictlyAscending : List ℚ → Bool
| [] => true
| [_] => true
| a :: b :: rest => decide (a < b) && strictlyAscending (b :: rest)

/-- Modelled from the spec: construct a calibration from polynomial
coefficients; fails with InvalidCalibration when the deviation pairs are not
sorted by energy. -/
def fromPolynomial (nchan : Nat) (cs : List ℚ) (dps : List (ℚ × ℚ)) :
    Except SpecError EnergyCalibration :=
  if devPairsSorted dps then .ok ⟨.polynomial cs, nchan, dps⟩
  else .error .invalidCalibration

/-- Modelled from the spec: construct a calibration from full-range-fraction
coefficients (requires the channel count); fails with InvalidCalibration
when the deviation pairs are not sorted by energy. -/
def fromFullRangeFraction (nchan : Nat) (cs : List ℚ) (dps : List (ℚ × ℚ)) :
    Except SpecError EnergyCalibration :=
  if devPairsSorted dps then .ok ⟨.fullRangeFraction cs, nchan, dps⟩
  else .error .invalidCalibration

/-- Modelled from the spec: construct a calibration from an explicit
lower-channel-energy sequence; fails with InvalidCalibration when the
sequence is not strictly ascending, its length is not channel count + 1, or
the deviation pairs are not sorted. -/
def fromLowerChannelEnergies (nchan : Nat) (es : List ℚ) (dps : List (ℚ × ℚ)) :
    Except SpecError EnergyCalibration :=
  if strictlyAscending es && decide (es.length = nchan + 1) && devPairsSorted dps then
    .ok ⟨.lowerChannelEnergy es, nchan, dps⟩
  else .error .invalidCalibration

/-- True when the calibration kind is Polynomial or FullRangeFraction (the
kinds covered by the inverse-conversion contract of the spec). -/
def isPolynomialOrFrf (cal : EnergyCalibration) : Bool :=
match cal.kind with
| .polynomial _ => true
| .fullRangeFraction _ => true
| .lowerChannelEnergy _ => false

/-- Modelled from the spec: a geographic position attached to a record:
latitude, longitude and an optional position timestamp. -/
structure Position where
  latitude : ℚ
  longitude : ℚ
  positionTime : Option Int
deriving DecidableEq

/-- Modelled from the spec: one spectroscopic acquisition.  Gamma channel
counts (empty when absent), live/real time, neutron data, optional start
time (timestamps are modelled as integers), detector name, optional sample
number, source type, occupancy, title, remarks, optional position and the
owned (optional) energy calibration. -/
structure Measurement where
  gammaCounts : List ℚ := []
  liveTime : ℚ := 0
  realTime : ℚ := 0
  neutronCounts : List ℚ := []
  neutronLiveTime : ℚ := 0
  startTime : Option Int := none
  detectorName : String := ""
  sampleNumber : Option Int := none
  sourceType : SourceType := .unknownSource
  occupancyStatus : OccupancyStatus := .unknownStatus
  title : String := ""
  remarks : List String := []
  position : Option Position := none
  energyCalibration : Option EnergyCalibration := none
deriving DecidableEq

/-- Modelled from the binding docs: a freshly created, empty measurement
(SpecUtils.Measurement.new): every field at its unset default, in particular
an empty-string detector name and no sample number. -/
def Measurement.new : Measurement := {}

/-- Modelled from the binding docs: when no calibration was set, queries use
a default polynomial calibration running from 0 to 3000 keV over the
record's channels. -/
def defaultCal (n : Nat) : EnergyCalibration :=
  ⟨.polynomial [0, 3000 / (n : ℚ)], n, []⟩

/-- The calibration a record's energy queries use: its own calibration when
set, otherwise the default 0–3000 keV polynomial. -/
def effectiveCal (m : Measurement) : EnergyCalibration :=
  m.energyCalibration.getD (defaultCal m.gammaCounts.length)

/-- Modelled from the spec: setGammaCounts atomically replaces counts and
both times; fails with DimensionMismatch when the counts length disagrees
with an already-attached calibration's channel count. -/
def setGammaCounts (m : Measurement) (counts : List ℚ) (lt rt : ℚ) :
    Except SpecError Measurement :=
match m.energyCalibration with
| some cal =>
  if counts.length = cal.numChannels then
    .ok { m with gammaCounts := counts, liveTime := lt, realTime := rt }
  else .error .dimensionMismatch
| none => .ok { m with gammaCounts := counts, liveTime := lt, realTime := rt }

/-- Modelled from the spec: setEnergyCalibration fails with
ChannelCountMismatch when counts are already set and their length differs
from the calibration's channel count. -/
def setEnergyCalibration (m : Measurement) (cal : EnergyCalibration) :
    Except SpecError Measurement :=
  if m.gammaCounts.length ≠ 0 ∧ m.gammaCounts.length ≠ cal.numChannels then
    .error .channelCountMismatch
  else .ok { m with energyCalibration := some cal }

/-- Total gamma count sum of a record, computed on demand. -/
def gammaCountSum (m : Measurement) : ℚ := m.gammaCounts.sum

/-- Number of gamma channels of a record. -/
def numGammaChannels (m : Measurement) : Nat := m.gammaCounts.length

/-- Counts in one gamma channel (zero outside the range). -/
def gammaChannelContent (m : Measurement) (c : Nat) : ℚ :=
  m.gammaCounts.getD c 0

/-- Lower energy edge of a gamma channel, after deviation correction. -/
def gammaChannelLower (m : Measurement) (c : Nat) : ℚ :=
  channelToEnergy (effectiveCal m) (c : ℚ)

/-- Upper energy edge of a gamma channel, after deviation correction. -/
def gammaChannelUpper (m : Measurement) (c : Nat) : ℚ :=
  channelToEnergy (effectiveCal m) ((c : ℚ) + 1)

/-! ### The spectrum-file container -/

/-- Modelled from the spec: the aggregate container: the owned measurement
records, instrument-level metadata, and the derived indices and aggregate
sums that the cleanup pass recomputes (stale until then). -/
structure SpecFile where
  records : List Measurement := []
  instrumentManufacturer : String := ""
  instrumentModel : String := ""
  instrumentType : String := ""
  serialNumber : String := ""
  measurementLocationName : String := ""
  uuid : String := ""
  detectorType : DetectorType := .unknownDetector
  fileRemarks : List String := []
  sampleNumbersIdx : List Int := []
  detectorNamesIdx : List String := []
  gammaDetectorNamesIdx : List String := []
  totalGammaCounts : ℚ := 0
  totalNeutronCounts : ℚ := 0
  totalLiveTime : ℚ := 0
  totalRealTime : ℚ := 0
deriving DecidableEq

/-- Modelled from the spec: the recognized cleanup options: preserve
original record order, rebin all records to a common calibration, reorder
records by sample number / start time. -/
structure CleanupOptions where
  dontChangeOrReorderSamples : Bool := true
  rebinToCommonBinning : Bool := false
  reorderSamplesByTime : Bool := false
deriving DecidableEq

/-- Primary sort key of a record for the cleanup reorder: its sample
number. -/
def sortKey1 (m : Measurement) : Int := m.sampleNumber.getD 0

/-- Secondary sort key of a record for the cleanup reorder: its start
time. -/
def sortKey2 (m : Measurement) : Int := m.startTime.getD 0

/-- The cleanup reorder relation: by sample number, then by start time. -/
def measLE (a b : Measurement) : Prop :=
  sortKey1 a < sortKey1 b ∨ (sortKey1 a = sortKey1 b ∧ sortKey2 a ≤ sortKey2 b)

instance : DecidableRel measLE := fun a b => by
  unfold measLE; infer_instance

instance : IsTotal Measurement measLE :=
  ⟨by intro a b; unfold measLE; omega⟩

instance : IsTrans Measurement measLE :=
  ⟨by intro a b c hab hbc; unfold measLE at hab hbc ⊢; omega⟩

/-- Modelled from the spec: the cleanup pass assigns a sample number to a
record that has none (validation/assignment of sample numbers). -/
def assignSample (m : Measurement) : Measurement :=
  { m with sampleNumber := some (m.sampleNumber.getD 1) }

/-- Modelled from the spec: resample the counts of one source calibration
onto a target calibration, linearly: each target channel receives from each
source channel the fraction of that source channel's counts proportional to
the energy overlap of the two channels. -/
def rebinCounts (src tgt : EnergyCalibration) (counts : List ℚ) : List ℚ :=
  (List.range tgt.numChannels).map (fun (j : Nat) =>
    ((List.range src.numChannels).map (fun (i : Nat) =>
      let loI := channelToEnergy src (i : ℚ)
      let hiI := channelToEnergy src ((i : ℚ) + 1)
      let loJ := channelToEnergy tgt (j : ℚ)
      let hiJ := channelToEnergy tgt ((j : ℚ) + 1)
      let ov := min hiI hiJ - max loI loJ
      if 0 < ov ∧ loI < hiI then counts.getD i 0 * ov / (hiI - loI) else 0)).sum)

/-- Modelled from the spec: rebin one record onto a target calibration; a
record already carrying the target calibration is left unchanged. -/
def rebinTo (target : EnergyCalibration) (m : Measurement) : Measurement :=
  if m.energyCalibration = some target then m
  else
    { m with
      gammaCounts := rebinCounts (effectiveCal m) target m.gammaCounts,
      energyCalibration := some target }

/-- Deduplicate a list keeping the first occurrence of each element, in
first-seen order. -/
def firstSeen (l : List String) : List String := l.reverse.dedup.reverse

/-- Derived index: the distinct sample numbers of the records, ascending. -/
def computeSampleNumbers (rs : List Measurement) : List Int :=
  List.insertionSort (fun a b => a ≤ b) (rs.filterMap (fun m => m.sampleNumber)).dedup

/-- Derived index: the distinct detector names of the records, in first-seen
order. -/
def computeDetectorNames (rs : List Measurement) : List String :=
  firstSeen (rs.map (fun m => m.detectorName))

/-- Derived index: the distinct detector names of the records that carry
gamma data, in first-seen order. -/
def computeGammaDetectorNames (rs : List Measurement) : List String :=
  firstSeen ((rs.filter (fun m => !m.gammaCounts.isEmpty)).map (fun m => m.detectorName))

/-- Recompute every derived index and aggregate sum of a container from its
record list (the normalization the cleanup pass performs). -/
def withDerived (f : SpecFile) : SpecFile :=
  { f with
    sampleNumbersIdx := computeSampleNumbers f.records,
    detectorNamesIdx := computeDetectorNames f.records,
    gammaDetectorNamesIdx := computeGammaDetectorNames f.records,
    totalGammaCounts := (f.records.map gammaCountSum).sum,
    totalNeutronCounts := (f.records.map (fun m => m.neutronCounts.sum)).sum,
    totalLiveTime := (f.records.map (fun m => m.liveTime)).sum,
    totalRealTime := (f.records.map (fun m => m.realTime)).sum }

/-- A container whose derived indices and aggregate sums exactly reflect its
current record set (the state the cleanup pass establishes). -/
def derivedConsistent (f : SpecFile) : Prop := withDerived f = f

/-- Modelled from the spec: rebin every record onto the calibration of the
first record (the rebin-to-common-binning cleanup option). -/
def rebinAll (rs : List Measurement) : List Measurement :=
match rs with
| [] => []
| m0 :: _ => rs.map (rebinTo (effectiveCal m0))

/-- The optional reorder step of the cleanup pass: sort the records by
sample number then start time when requested, else leave the order. -/
def applySortOpt (b : Bool) (rs : List Measurement) : List Measurement :=
  if b then List.insertionSort measLE rs else rs

/-- The optional rebin step of the cleanup pass: rebin every record to the
first record's calibration when requested, else leave the records. -/
def applyRebinOpt (b : Bool) (rs : List Measurement) : List Measurement :=
  if b then rebinAll rs else rs

/-- The record-list part of the cleanup pass: assign sample numbers, then
optionally reorder by sample number / start time, then optionally rebin to
a common calibration. -/
def cleanupRecords (opts : CleanupOptions) (rs : List Measurement) : List Measurement :=
  applyRebinOpt opts.rebinToCommonBinning
    (applySortOpt (opts.reorderSamplesByTime && !opts.dontChangeOrReorderSamples)
      (rs.map assignSample))

/-- Modelled from the spec: the cleanup pass (cleanupAfterLoad): normalize
the record list and recompute every derived index and aggregate sum from
scratch. -/
def cleanupAfterLoad (opts : CleanupOptions) (f : SpecFile) : SpecFile :=
  withDerived { f with records := cleanupRecords opts f.records }

/-- Number of records the container holds. -/
def numMeasurements (f : SpecFile) : Nat := f.records.length

/-- The container's records, in order. -/
def measurements (f : SpecFile) : List Measurement := f.records

/-- The i-th record of the container. -/
def measurement (f : SpecFile) (i : Nat) : Option Measurement := f.records.get? i

/-- True when a record's (sample number, detector name) key collides with a
record already in the list. -/
def recordKeyCollides (m : Measurement) (rs : List Measurement) : Bool :=
  rs.any (fun r =>
    decide (r.sampleNumber = m.sampleNumber) && decide (r.detectorName = m.detectorName))

/-- Modelled from the spec: addMeasurement inserts a record, failing with
DuplicateRecordKey on a colliding (sample, detector) key; with doCleanup the
cleanup pass runs immediately, otherwise derived indices are left stale. -/
def addMeasurement (f : SpecFile) (m : Measurement) (doCleanup : Bool) :
    Except SpecError SpecFile :=
  if recordKeyCollides m f.records then .error .duplicateRecordKey
  else
    let g : SpecFile := { f with records := f.records ++ [m] }
    .ok (if doCleanup then cleanupAfterLoad {} g else g)

/-- The records selected by a sample-number set and a detector-name set: a
record matches when its sample number is in the requested set and its
detector name is in the requested set. -/
def matchingRecords (f : SpecFile) (samples : List Int) (dets : List String) :
    List Measurement :=
  f.records.filter (fun m =>
    (match m.sampleNumber with
     | some s => samples.contains s
     | none => false) && dets.contains m.detectorName)

/-- Elementwise sum of two channel-count lists (the shorter one padded with
zeros). -/
def addCounts : List ℚ → List ℚ → List ℚ
| [], ys => ys
| x :: xs, [] => x :: xs
| x :: xs, y :: ys => (x + y) :: addCounts xs ys

/-- Per-channel (elementwise) sum of a list of channel-count lists. -/
def sumCounts (ls : List (List ℚ)) : List ℚ := ls.foldr addCounts []

/-- The earliest of the present start times, none when no input has one. -/
def earliestTime (ts : List (Option Int)) : Option Int :=
match ts.filterMap id with
| [] => none
| x :: xs => some (xs.foldl min x)

/-- Modelled from the spec: the derived record the summation engine
produces: per-channel summed counts, summed live/real/neutron-live times,
earliest start time, and unset detector name and sample number. -/
def sumRecords (sel : List Measurement) (cal : EnergyCalibration) : Measurement :=
  { gammaCounts := sumCounts (sel.map (fun m => m.gammaCounts)),
    liveTime := (sel.map (fun m => m.liveTime)).sum,
    realTime := (sel.map (fun m => m.realTime)).sum,
    neutronCounts := sumCounts (sel.map (fun m => m.neutronCounts)),
    neutronLiveTime := (sel.map (fun m => m.neutronLiveTime)).sum,
    startTime := earliestTime (sel.map (fun m => m.startTime)),
    detectorName := "",
    sampleNumber := none,
    sourceType := .unknownSource,
    occupancyStatus := .unknownStatus,
    title := "",
    remarks := [],
    position := none,
    energyCalibration := some cal }

/-- Modelled from the spec: sumMeasurements selects every record matching
the requested sample numbers and detector names; an empty selection fails
with EmptySelection; records sharing a compatible (value-equal) calibration
are summed directly, otherwise every record is first rebinned onto the
calibration of the first selected record. -/
def sumMeasurements (f : SpecFile) (samples : List Int) (dets : List String) :
    Except SpecError Measurement :=
match matchingRecords f samples dets with
| [] => .error .emptySelection
| m0 :: rest =>
  let cal := effectiveCal m0
  if (m0 :: rest).all (fun m => decide (effectiveCal m = cal)) then
    .ok (sumRecords (m0 :: rest) cal)
  else
    .ok (sumRecords ((m0 :: rest).map (rebinTo cal)) cal)

/-! ### The N42-2012 XML codec (the lossless archival format) -/

/-- String tag an N42 document stores for a source type. -/
def sourceTypeTag : SourceType → String
| .background => "Background"
| .foreground => "Foreground"
| .calibration => "Calibration"
| .intrinsicActivity => "IntrinsicActivity"
| .unknownSource => "Unknown"

/-- Parse a source-type tag back; unknown tags fail. -/
def parseSourceType (s : String) : Option SourceType :=
  if s = "Background" then some .background
  else if s = "Foreground" then some .foreground
  else if s = "Calibration" then some .calibration
  else if s = "IntrinsicActivity" then some .intrinsicActivity
  else if s = "Unknown" then some .unknownSource
  else none

/-- String tag an N42 document stores for an occupancy status. -/
def occupancyTag : OccupancyStatus → String
| .notOccupied => "NotOccupied"
| .occupied => "Occupied"
| .unknownStatus => "UnknownOccupancy"

/-- Parse an occupancy tag back; unknown tags fail. -/
def parseOccupancy (s : String) : Option OccupancyStatus :=
  if s = "NotOccupied" then some .notOccupied
  else if s = "Occupied" then some .occupied
  else if s = "UnknownOccupancy" then some .unknownStatus
  else none

/-- String tag an N42 document stores for a detector type. -/
def detectorTypeTag : DetectorType → String
| .detectiveEx100 => "DetectiveEx100"
| .detectiveEx => "DetectiveEx"
| .identiFinder => "IdentiFinder"
| .unknownDetector => "UnknownDetector"

/-- Parse a detector-type tag back; unknown tags fail. -/
def parseDetectorType (s : String) : Option DetectorType :=
  if s = "DetectiveEx100" then some .detectiveEx100
  else if s = "DetectiveEx" then some .detectiveEx
  else if s = "IdentiFinder" then some .identiFinder
  else if s = "UnknownDetector" then some .unknownDetector
  else none

/-- The on-document encoding of an energy calibration: a kind tag, the
coefficient (or lower-channel-energy) list, the channel count and the
deviation pairs. -/
structure N42Calibration where
  calKindTag : String
  calCoefficients : List ℚ
  calNumChannels : Nat
  calDeviationPairs : List (ℚ × ℚ)
deriving DecidableEq

/-- Encode a calibration into its N42 document form. -/
def encodeCalibration (cal : EnergyCalibration) : N42Calibration :=
match cal.kind with
| .polynomial cs => ⟨"Polynomial", cs, cal.numChannels, cal.deviationPairs⟩
| .fullRangeFraction cs => ⟨"FullRangeFraction", cs, cal.numChannels, cal.deviationPairs⟩
| .lowerChannelEnergy es => ⟨"LowerChannelEnergy", es, cal.numChannels, cal.deviationPairs⟩

/-- Decode a calibration from its N42 document form; an unknown kind tag
fails. -/
def parseCalibration (x : N42Calibration) : Option EnergyCalibration :=
  if x.calKindTag = "Polynomial" then
    some ⟨.polynomial x.calCoefficients, x.calNumChannels, x.calDeviationPairs⟩
  else if x.calKindTag = "FullRangeFraction" then
    some ⟨.fullRangeFraction x.calCoefficients, x.calNumChannels, x.calDeviationPairs⟩
  else if x.calKindTag = "LowerChannelEnergy" then
    some ⟨.lowerChannelEnergy x.calCoefficients, x.calNumChannels, x.calDeviationPairs⟩
  else none

/-- Modelled from the spec: one RadMeasurement element of an N42-2012
document: every field of the measurement record in its document form
(enumerations as string tags). -/
structure N42Measurement where
  mChannelData : List ℚ
  mLiveTime : ℚ
  mRealTime : ℚ
  mNeutronData : List ℚ
  mNeutronLiveTime : ℚ
  mStartTime : Option Int
  mDetectorName : String
  mSampleNumber : Option Int
  mSourceTypeTag : String
  mOccupancyTag : String
  mTitle : String
  mRemarks : List String
  mPosition : Option Position
  mCalibration : Option N42Calibration
deriving DecidableEq

/-- Encode one measurement record into its N42 document form. -/
def encodeMeasurement (m : Measurement) : N42Measurement :=
  { mChannelData := m.gammaCounts,
    mLiveTime := m.liveTime,
    mRealTime := m.realTime,
    mNeutronData := m.neutronCounts,
    mNeutronLiveTime := m.neutronLiveTime,
    mStartTime := m.startTime,
    mDetectorName := m.detectorName,
    mSampleNumber := m.sampleNumber,
    mSourceTypeTag := sourceTypeTag m.sourceType,
    mOccupancyTag := occupancyTag m.occupancyStatus,
    mTitle := m.title,
    mRemarks := m.remarks,
    mPosition := m.position,
    mCalibration := m.energyCalibration.map encodeCalibration }

/-- Decode one measurement record from its N42 document form; an unknown
source-type, occupancy or calibration tag fails. -/
def parseMeasurement (x : N42Measurement) : Option Measurement := do
  let st ← parseSourceType x.mSourceTypeTag
  let occ ← parseOccupancy x.mOccupancyTag
  let cal ←
    match x.mCalibration with
    | none => some none
    | some c => (parseCalibration c).map some
  pure
    { gammaCounts := x.mChannelData,
      liveTime := x.mLiveTime,
      realTime := x.mRealTime,
      neutronCounts := x.mNeutronData,
      neutronLiveTime := x.mNeutronLiveTime,
      startTime := x.mStartTime,
      detectorName := x.mDetectorName,
      sampleNumber := x.mSampleNumber,
      sourceType := st,
      occupancyStatus := occ,
      title := x.mTitle,
      remarks := x.mRemarks,
      position := x.mPosition,
      energyCalibration := cal }

/-- Modelled from the spec: an N42-2012 document: the instrument-level
metadata (enumerations as string tags) and one RadMeasurement element per
record. -/
structure N42Document where
  docMeasurements : List N42Measurement
  docManufacturer : String
  docInstrumentModel : String
  docInstrumentType : String
  docSerialNumber : String
  docLocationName : String
  docUuid : String
  docDetectorTypeTag : String
  docRemarks : List String
deriving DecidableEq

/-- Modelled from the spec and the binding docs: write2012N42Xml encodes the
whole container — every record and every instrument-level field — into the
N42-2012 document. -/
def write2012N42Xml (f : SpecFile) : N42Document :=
  { docMeasurements := f.records.map encodeMeasurement,
    docManufacturer := f.instrumentManufacturer,
    docInstrumentModel := f.instrumentModel,
    docInstrumentType := f.instrumentType,
    docSerialNumber := f.serialNumber,
    docLocationName := f.measurementLocationName,
    docUuid := f.uuid,
    docDetectorTypeTag := detectorTypeTag f.detectorType,
    docRemarks := f.fileRemarks }

/-- Decode a list of N42 measurement elements, failing when any element
fails. -/
def parseAllMeasurements : List N42Measurement → Option (List Measurement)
| [] => some []
| x :: xs => do
  let m ← parseMeasurement x
  let ms ← parseAllMeasurements xs
  pure (m :: ms)

/-- Modelled from the spec: decode an N42-2012 document back into a
container; the cleanup normalization runs after a load, so every derived
index of the decoded container reflects its records. -/
def parseN42 (d : N42Document) : Option SpecFile := do
  let rs ← parseAllMeasurements d.docMeasurements
  let dt ← parseDetectorType d.docDetectorTypeTag
  pure
    (withDerived
      { records := rs,
        instrumentManufacturer := d.docManufacturer,
        instrumentModel := d.docInstrumentModel,
        instrumentType := d.docInstrumentType,
        serialNumber := d.docSerialNumber,
        measurementLocationName := d.docLocationName,
        uuid := d.docUuid,
        detectorType := dt,
        fileRemarks := d.docRemarks })

/-! ### Writing to a filesystem path -/

/-- Modelled from the binding API: the target formats of writeToFile /
writeToStream. -/
inductive SaveSpectrumAsType
| chn
| pcf
| n42of2012
deriving DecidableEq

/-- Round a rational to the nearest integer, ties to even (the documented
rounding rule of the integer binary formats). -/
def roundHalfEven (q : ℚ) : Int :=
  let f := ⌊q⌋
  let r := q - (f : ℚ)
  if r < 1 / 2 then f
  else if 1 / 2 < r then f + 1
  else if f % 2 = 0 then f else f + 1

/-- The bytes a codec produces, per format: the integer CHN layout (counts
rounded half-to-even), the floating-point PCF layout, or the N42-2012
document. -/
inductive EncodedFile
| chnOutput (counts : List Int)
| pcfOutput (spectra : List (List ℚ))
| n42Output (doc : N42Document)
deriving DecidableEq

/-- Encode a container into the chosen format. -/
def encodeFile (fmt : SaveSpectrumAsType) (f : SpecFile) : EncodedFile :=
match fmt with
| .chn => .chnOutput ((sumCounts (f.records.map (fun m => m.gammaCounts))).map roundHalfEven)
| .pcf => .pcfOutput (f.records.map (fun m => m.gammaCounts))
| .n42of2012 => .n42Output (write2012N42Xml f)

/-- A filesystem, modelled as an association list from paths to file
contents. -/
def FileSystem : Type := List (String × EncodedFile)

/-- The container filtered to the requested sample numbers and detector
names (what the write functions serialize). -/
def filteredFile (f : SpecFile) (samples : List Int) (dets : List String) : SpecFile :=
  withDerived { f with records := matchingRecords f samples dets }

/-- Modelled from the spec and the binding docs: writeToFile writes the
filtered container to a filesystem path in the chosen format; when the
target path already exists it fails with an EncodeError ("not overwriting")
and the filesystem is left untouched. -/
def writeToFile (fs : FileSystem) (path : String) (f : SpecFile)
    (samples : List Int) (dets : List String) (fmt : SaveSpectrumAsType) :
    Except SpecError FileSystem :=
  if (fs.lookup path).isSome then .error (.encodeError "not overwriting existing file")
  else .ok ((path, encodeFile fmt (filteredFile f samples dets)) :: fs)

/-! ### Concrete example data (the scenario of the binding examples) -/

/-- A container with no records and every metadata field at its default. -/
def emptyFile : SpecFile := {}

/-- The full-range-fraction calibration of the binding examples:
coefficients [0, 3000] over 10 channels with deviation pairs
(100, -10), (1460, 15), (3000, 0). -/
def exCal : EnergyCalibration :=
  ⟨.fullRangeFraction [0, 3000], 10, [(100, -10), (1460, 15), (3000, 0)]⟩

/-- The first example record: counts [0, 1.1, 2, 3, 4, 5.9, 6, 7, 8, 9],
live time 10 s, real time 15 s, sample number 1, detector "Aa1". -/
def exMeasA : Measurement :=
  { gammaCounts := [0, 11/10, 2, 3, 4, 59/10, 6, 7, 8, 9],
    liveTime := 10,
    realTime := 15,
    neutronCounts := [120],
    neutronLiveTime := 599/10,
    startTime := some 1661472323,
    detectorName := "Aa1",
    sampleNumber := some 1,
    sourceType := .background,
    occupancyStatus := .notOccupied,
    title := "Measurement title",
    remarks := ["Remark 1", "Remark 2"],
    position := some ⟨37, -121, some 1661472323⟩,
    energyCalibration := some exCal }

/-- The second example record: counts [5, 2.1, 6, 1, 9, 5.2, 2, 1, 0, 10],
live time 10 s, real time 15 s, sample number 2, detector "Aa1". -/
def exMeasB : Measurement :=
  { gammaCounts := [5, 21/10, 6, 1, 9, 52/10, 2, 1, 0, 10],
    liveTime := 10,
    realTime := 15,
    startTime := some 1661472338,
    detectorName := "Aa1",
    sampleNumber := some 2,
    sourceType := .foreground,
    energyCalibration := some exCal }

/-- The example container holding both example records. -/
def exFile : SpecFile := { records := [exMeasA, exMeasB] }

/-- A record built without ever setting a detector name: it keeps the
empty-string default. -/
def exMeasNoName : Measurement :=
  { gammaCounts := [1, 2], liveTime := 1, realTime := 2 }

/-! ### Helper lemmas -/

theorem addCounts_getD (xs ys : List ℚ) (i : Nat) :
    (addCounts xs ys).getD i 0 = xs.getD i 0 + ys.getD i 0 := by
  induction xs generalizing ys i with
  | nil => simp [addCounts]
  | cons x xs ih =>
    cases ys with
    | nil => simp [addCounts]
    | cons y ys =>
      cases i with
      | zero => simp [addCounts]
      | succ n =>
        show (addCounts (x :: xs) (y :: ys)).getD (n + 1) 0 = _
        have h1 : addCounts (x :: xs) (y :: ys) = (x + y) :: addCounts xs ys := rfl
        rw [h1, List.getD_cons_succ, List.getD_cons_succ, List.getD_cons_succ]
        exact ih ys n

theorem sumCounts_getD (ls : List (List ℚ)) (i : Nat) :
    (sumCounts ls).getD i 0 = (ls.map (fun xs => xs.getD i 0)).sum := by
  induction ls with
  | nil => simp [sumCounts]
  | cons l ls ih =>
    have : sumCounts (l :: ls) = addCounts l (sumCounts ls) := rfl
    rw [this, addCounts_getD, ih]
    simp

theorem foldl_min_le (xs : List Int) (x : Int) :
    xs.foldl min x ≤ x ∧ ∀ y ∈ xs, xs.foldl min x ≤ y := by
  induction xs generalizing x with
  | nil => simp
  | cons z zs ih =>
    refine ⟨le_trans (ih (min x z)).1 (min_le_left x z), ?_⟩
    intro y hy
    rcases List.mem_cons.mp hy with rfl | hy
    · exact le_trans (ih (min x y)).1 (min_le_right x y)
    · exact (ih (min x z)).2 y hy

theorem earliestTime_le (ts : List (Option Int)) (e t : Int)
    (he : earliestTime ts = some e) (ht : some t ∈ ts) : e ≤ t := by
  unfold earliestTime at he
  have htf : t ∈ ts.filterMap id := List.mem_filterMap.mpr ⟨some t, ht, rfl⟩
  cases h : ts.filterMap id with
  | nil => rw [h] at htf; simp at htf
  | cons x xs =>
    rw [h] at he htf
    have hee : xs.foldl min x = e := by
      injection he
    rcases List.mem_cons.mp htf with rfl | htf
    · rw [← hee]; exact (foldl_min_le xs t).1
    · rw [← hee]; exact (foldl_min_le xs x).2 t htf

/-! ### Claim theorems: error handling and simple invariants -/

/-- Claim C6: for every container, sumMeasurements over a sample-number set
and detector-name set that match no record fails with EmptySelection, and
never returns a (zero-filled or otherwise) derived record. -/
theorem sumMeasurementsEmptySelection (f : SpecFile) (samples : List Int)
    (dets : List String) (hsel : matchingRecords f samples dets = []) :
    sumMeasurements f samples dets = .error .emptySelection ∧
      ∀ r : Measurement, sumMeasurements f samples dets ≠ .ok r := by
  have h : sumMeasurements f samples dets = .error .emptySelection := by
    unfold sumMeasurements
    rw [hsel]
  exact ⟨h, fun r hr => by rw [h] at hr; exact Except.noConfusion hr⟩

/-- Witness for C6: the empty container matches nothing, and summing over
sample 1 and detector "Aa1" fails with EmptySelection. -/
theorem sumMeasurementsEmptySelection_witness :
    matchingRecords emptyFile [1] ["Aa1"] = [] ∧
      sumMeasurements emptyFile [1] ["Aa1"] = .error .emptySelection :=
  ⟨rfl, (sumMeasurementsEmptySelection emptyFile [1] ["Aa1"] rfl).1⟩

/-- Claim C7: writing a container to a filesystem path that already exists,
without opting in to overwriting, fails with an EncodeError saying the file
is not overwritten, and no new filesystem state is produced (the existing
file is untouched). -/
theorem writeToFileExisting (fs : FileSystem) (path : String) (f : SpecFile)
    (samples : List Int) (dets : List String) (fmt : SaveSpectrumAsType)
    (h : (fs.lookup path).isSome = true) :
    writeToFile fs path f samples dets fmt =
        .error (.encodeError "not overwriting existing file") ∧
      ∀ fs2 : FileSystem, writeToFile fs path f samples dets fmt ≠ .ok fs2 := by
  have hw : writeToFile fs path f samples dets fmt =
      .error (.encodeError "not overwriting existing file") := by
    unfold writeToFile
    rw [if_pos h]
  exact ⟨hw, fun fs2 hr => by rw [hw] at hr; exact Except.noConfusion hr⟩

/-- Witness for C7: a filesystem already holding "out.chn" refuses a second
write to that path. -/
theorem writeToFileExisting_witness :
    ((([("out.chn", EncodedFile.chnOutput [])] : FileSystem).lookup "out.chn").isSome = true) ∧
      writeToFile [("out.chn", EncodedFile.chnOutput [])] "out.chn" emptyFile [] [] .chn =
        .error (.encodeError "not overwriting existing file") :=
  ⟨rfl,
    (writeToFileExisting [("out.chn", EncodedFile.chnOutput [])] "out.chn" emptyFile [] []
      .chn rfl).1⟩

/-- Claim C9: for an in-range channel index, the per-channel query
gammaChannelContent agrees with direct indexing of the counts array. -/
theorem gammaChannelContentAgrees (m : Measurement) (c : Nat)
    (h : c < m.gammaCounts.length) :
    some (gammaChannelContent m c) = m.gammaCounts.get? c := by
  unfold gammaChannelContent
  rw [List.getD_eq_getElem?_getD, List.get?_eq_getElem?]
  rw [List.getElem?_eq_getElem h]
  rfl

/-- Witness for C9: channel 1 of the example record holds 1.1 counts, both
through the query and through direct indexing. -/
theorem gammaChannelContentAgrees_witness :
    1 < exMeasA.gammaCounts.length ∧
      some (gammaChannelContent exMeasA 1) = exMeasA.gammaCounts.get? 1 :=
  ⟨by decide, gammaChannelContentAgrees exMeasA 1 (by decide)⟩

/-! ### Lemmas about the cleanup steps -/

theorem assignSample_idem (m : Measurement) :
    assignSample (assignSample m) = assignSample m := rfl

theorem assignSample_eq_self (m : Measurement) (h : ∃ v, m.sampleNumber = some v) :
    assignSample m = m := by
  obtain ⟨v, hv⟩ := h
  cases m
  dsimp only at hv
  subst hv
  rfl

theorem assignSample_some (m : Measurement) :
    ∃ v, (assignSample m).sampleNumber = some v := ⟨_, rfl⟩

theorem rebinTo_sampleNumber (t : EnergyCalibration) (m : Measurement) :
    (rebinTo t m).sampleNumber = m.sampleNumber := by
  unfold rebinTo; split <;> rfl

theorem rebinTo_startTime (t : EnergyCalibration) (m : Measurement) :
    (rebinTo t m).startTime = m.startTime := by
  unfold rebinTo; split <;> rfl

theorem rebinTo_detectorName (t : EnergyCalibration) (m : Measurement) :
    (rebinTo t m).detectorName = m.detectorName := by
  unfold rebinTo; split <;> rfl

theorem rebinTo_liveTime (t : EnergyCalibration) (m : Measurement) :
    (rebinTo t m).liveTime = m.liveTime := by
  unfold rebinTo; split <;> rfl

theorem rebinTo_cal (t : EnergyCalibration) (m : Measurement) :
    (rebinTo t m).energyCalibration = some t := by
  unfold rebinTo
  split
  · assumption
  · rfl

theorem rebinTo_eq_self {t : EnergyCalibration} {m : Measurement}
    (h : m.energyCalibration = some t) : rebinTo t m = m := by
  unfold rebinTo; rw [if_pos h]

theorem effectiveCal_eq {t : EnergyCalibration} {m : Measurement}
    (h : m.energyCalibration = some t) : effectiveCal m = t := by
  unfold effectiveCal; rw [h]; rfl

theorem map_rebinTo_self (t : EnergyCalibration) (rs : List Measurement)
    (h : ∀ m ∈ rs, m.energyCalibration = some t) : rs.map (rebinTo t) = rs := by
  have h2 : ∀ m ∈ rs, rebinTo t m = id m := fun m hm => rebinTo_eq_self (h m hm)
  rw [List.map_congr_left h2, List.map_id]

theorem rebinAll_cons (a : Measurement) (l : List Measurement) :
    rebinAll (a :: l) = (a :: l).map (rebinTo (effectiveCal a)) := rfl

theorem rebinAll_idem (rs : List Measurement) : rebinAll (rebinAll rs) = rebinAll rs := by
  cases rs with
  | nil => rfl
  | cons m0 rest =>
    have hhead : (rebinTo (effectiveCal m0) m0).energyCalibration
        = some (effectiveCal m0) := rebinTo_cal _ _
    have hcals : ∀ m ∈ (m0 :: rest).map (rebinTo (effectiveCal m0)),
        m.energyCalibration = some (effectiveCal m0) := by
      intro m hm
      obtain ⟨y, _, rfl⟩ := List.mem_map.mp hm
      exact rebinTo_cal _ _
    calc rebinAll (rebinAll (m0 :: rest))
        = rebinAll (rebinTo (effectiveCal m0) m0 :: rest.map (rebinTo (effectiveCal m0))) := by
          rw [rebinAll_cons, List.map_cons]
      _ = ((rebinTo (effectiveCal m0) m0 :: rest.map (rebinTo (effectiveCal m0))).map
            (rebinTo (effectiveCal (rebinTo (effectiveCal m0) m0)))) := rebinAll_cons _ _
      _ = ((m0 :: rest).map (rebinTo (effectiveCal m0))).map (rebinTo (effectiveCal m0)) := by
          rw [effectiveCal_eq hhead]; rfl
      _ = (m0 :: rest).map (rebinTo (effectiveCal m0)) := map_rebinTo_self _ _ hcals
      _ = rebinAll (m0 :: rest) := (rebinAll_cons _ _).symm

theorem measLE_rebinTo (t : EnergyCalibration) {a b : Measurement} (h : measLE a b) :
    measLE (rebinTo t a) (rebinTo t b) := by
  unfold measLE sortKey1 sortKey2 at h ⊢
  rw [rebinTo_sampleNumber, rebinTo_sampleNumber, rebinTo_startTime, rebinTo_startTime]
  exact h

theorem sorted_map_rebin (t : EnergyCalibration) {rs : List Measurement}
    (h : List.Sorted measLE rs) : List.Sorted measLE (rs.map (rebinTo t)) :=
  List.Pairwise.map (rebinTo t) (fun _ _ hab => measLE_rebinTo t hab) h

theorem sorted_rebinAll {rs : List Measurement} (h : List.Sorted measLE rs) :
    List.Sorted measLE (rebinAll rs) := by
  cases rs with
  | nil => exact h
  | cons a l => rw [rebinAll_cons]; exact sorted_map_rebin _ h

theorem applySortOpt_mem {b : Bool} {rs : List Measurement} {m : Measurement} :
    m ∈ applySortOpt b rs ↔ m ∈ rs := by
  cases b <;> simp [applySortOpt]

theorem applySortOpt_of_sorted {b : Bool} {rs : List Measurement}
    (h : List.Sorted measLE rs) : applySortOpt b rs = rs := by
  cases b with
  | false => rfl
  | true => exact h.insertionSort_eq

theorem sorted_applySortOpt_true (rs : List Measurement) :
    List.Sorted measLE (applySortOpt true rs) := by
  show List.Sorted measLE (List.insertionSort measLE rs)
  exact List.sorted_insertionSort measLE rs

theorem sorted_applyRebinOpt {b : Bool} {rs : List Measurement}
    (h : List.Sorted measLE rs) : List.Sorted measLE (applyRebinOpt b rs) := by
  cases b with
  | false => exact h
  | true => exact sorted_rebinAll h

theorem applyRebinOpt_idem (b : Bool) (rs : List Measurement) :
    applyRebinOpt b (applyRebinOpt b rs) = applyRebinOpt b rs := by
  cases b with
  | false => rfl
  | true => exact rebinAll_idem rs

theorem assigned_applyRebinOpt {b : Bool} {rs : List Measurement}
    (h : ∀ m ∈ rs, ∃ v, m.sampleNumber = some v) :
    ∀ m ∈ applyRebinOpt b rs, ∃ v, m.sampleNumber = some v := by
  cases b with
  | false => exact h
  | true =>
    intro m hm
    cases rs with
    | nil => simp [applyRebinOpt, rebinAll] at hm
    | cons a l =>
      have : applyRebinOpt true (a :: l) = (a :: l).map (rebinTo (effectiveCal a)) :=
        rebinAll_cons a l
      rw [this] at hm
      obtain ⟨y, hy, rfl⟩ := List.mem_map.mp hm
      rw [rebinTo_sampleNumber]
      exact h y hy

theorem map_assign_of_assigned {rs : List Measurement}
    (h : ∀ m ∈ rs, ∃ v, m.sampleNumber = some v) : rs.map assignSample = rs := by
  have h2 : ∀ m ∈ rs, assignSample m = id m := fun m hm => assignSample_eq_self m (h m hm)
  rw [List.map_congr_left h2, List.map_id]

theorem cleanupRecords_idem (opts : CleanupOptions) (rs : List Measurement) :
    cleanupRecords opts (cleanupRecords opts rs) = cleanupRecords opts rs := by
  unfold cleanupRecords
  have hA : ∀ m ∈ (rs.map assignSample), ∃ v, m.sampleNumber = some v := by
    intro m hm
    obtain ⟨y, _, rfl⟩ := List.mem_map.mp hm
    exact assignSample_some y
  have hS : ∀ m ∈ applySortOpt (opts.reorderSamplesByTime && !opts.dontChangeOrReorderSamples)
      (rs.map assignSample), ∃ v, m.sampleNumber = some v :=
    fun m hm => hA m (applySortOpt_mem.mp hm)
  have hZ : ∀ m ∈ applyRebinOpt opts.rebinToCommonBinning
      (applySortOpt (opts.reorderSamplesByTime && !opts.dontChangeOrReorderSamples)
        (rs.map assignSample)), ∃ v, m.sampleNumber = some v :=
    assigned_applyRebinOpt hS
  rw [map_assign_of_assigned hZ]
  have hsorted : List.Sorted measLE (applyRebinOpt opts.rebinToCommonBinning
      (applySortOpt true (rs.map assignSample))) :=
    sorted_applyRebinOpt (sorted_applySortOpt_true _)
  have hsort_eq : applySortOpt (opts.reorderSamplesByTime && !opts.dontChangeOrReorderSamples)
      (applyRebinOpt opts.rebinToCommonBinning
        (applySortOpt (opts.reorderSamplesByTime && !opts.dontChangeOrReorderSamples)
          (rs.map assignSample)))
      = applyRebinOpt opts.rebinToCommonBinning
        (applySortOpt (opts.reorderSamplesByTime && !opts.dontChangeOrReorderSamples)
          (rs.map assignSample)) := by
    cases hb : (opts.reorderSamplesByTime && !opts.dontChangeOrReorderSamples) with
    | false => rfl
    | true => exact applySortOpt_of_sorted hsorted
  rw [hsort_eq]
  exact applyRebinOpt_idem _ _

/-- Claim C4: for every container and every fixed set of cleanup options,
the cleanup pass is idempotent: a second run with the same options leaves
the container — records, their order, and every derived index and aggregate
sum — exactly as after the first run. -/
theorem cleanupIdempotent (opts : CleanupOptions) (f : SpecFile) :
    cleanupAfterLoad opts (cleanupAfterLoad opts f) = cleanupAfterLoad opts f := by
  unfold cleanupAfterLoad
  have h1 : (withDerived { f with records := cleanupRecords opts f.records }).records
      = cleanupRecords opts f.records := rfl
  rw [h1, cleanupRecords_idem]
  rfl

/-! ### Record count and index consistency -/

theorem rebinAll_length (rs : List Measurement) : (rebinAll rs).length = rs.length := by
  cases rs with
  | nil => rfl
  | cons a l => rw [rebinAll_cons]; simp

theorem applyRebinOpt_length (b : Bool) (rs : List Measurement) :
    (applyRebinOpt b rs).length = rs.length := by
  cases b with
  | false => rfl
  | true => exact rebinAll_length rs

theorem applySortOpt_length (b : Bool) (rs : List Measurement) :
    (applySortOpt b rs).length = rs.length := by
  cases b with
  | false => rfl
  | true => exact List.length_insertionSort measLE rs

theorem cleanupRecords_length (opts : CleanupOptions) (rs : List Measurement) :
    (cleanupRecords opts rs).length = rs.length := by
  unfold cleanupRecords
  rw [applyRebinOpt_length, applySortOpt_length, List.length_map]

/-- Claim C8: after the cleanup pass, numMeasurements equals the length of
the list returned by measurements (and the record count of the input), and
the indexed accessor measurement i agrees with indexing that list, at every
index. -/
theorem measurementIndexConsistent (opts : CleanupOptions) (f : SpecFile) :
    numMeasurements (cleanupAfterLoad opts f) = (measurements (cleanupAfterLoad opts f)).length ∧
      numMeasurements (cleanupAfterLoad opts f) = numMeasurements f ∧
      ∀ i : Nat,
        measurement (cleanupAfterLoad opts f) i = (measurements (cleanupAfterLoad opts f)).get? i := by
  refine ⟨rfl, ?_, fun i => rfl⟩
  show (cleanupAfterLoad opts f).records.length = f.records.length
  have h1 : (cleanupAfterLoad opts f).records = cleanupRecords opts f.records := rfl
  rw [h1, cleanupRecords_length]

/-! ### Records with the default (empty) detector name -/

theorem mem_firstSeen {a : String} {l : List String} : a ∈ firstSeen l ↔ a ∈ l := by
  simp [firstSeen]

theorem assignSample_detectorName (m : Measurement) :
    (assignSample m).detectorName = m.detectorName := rfl

theorem assignSample_gammaCounts (m : Measurement) :
    (assignSample m).gammaCounts = m.gammaCounts := rfl

/-- Claim C10: a measurement added without ever setting a detector name is
recorded under the empty-string detector name: after a cleanup (without
rebinning), the empty string is an entry of the detector-name index and of
the gamma-detector-name index (the record carrying gamma counts), and the
record remains selectable by the empty-string name. -/
theorem emptyDetectorNameRecorded (f : SpecFile) (opts : CleanupOptions) (m : Measurement)
    (hname : m.detectorName = "") (hgam : m.gammaCounts ≠ [])
    (hrb : opts.rebinToCommonBinning = false) :
    "" ∈ (cleanupAfterLoad opts { f with records := f.records ++ [m] }).detectorNamesIdx ∧
      "" ∈ (cleanupAfterLoad opts { f with records := f.records ++ [m] }).gammaDetectorNamesIdx ∧
      (cleanupAfterLoad opts { f with records := f.records ++ [m] }).records.filter
          (fun r => decide (r.detectorName = "")) ≠ [] := by
  have hR : (cleanupAfterLoad opts { f with records := f.records ++ [m] }).records
      = applySortOpt (opts.reorderSamplesByTime && !opts.dontChangeOrReorderSamples)
          ((f.records ++ [m]).map assignSample) := by
    show cleanupRecords opts (f.records ++ [m]) = _
    unfold cleanupRecords
    rw [hrb]
    rfl
  have hrmem : assignSample m ∈ (cleanupAfterLoad opts { f with records := f.records ++ [m] }).records := by
    rw [hR]
    exact applySortOpt_mem.mpr (List.mem_map_of_mem assignSample (by simp))
  have hrname : (assignSample m).detectorName = "" := by
    rw [assignSample_detectorName, hname]
  refine ⟨?_, ?_, ?_⟩
  · show "" ∈ computeDetectorNames (cleanupAfterLoad opts { f with records := f.records ++ [m] }).records
    rw [computeDetectorNames, mem_firstSeen]
    exact List.mem_map.mpr ⟨assignSample m, hrmem, hrname⟩
  · show "" ∈ computeGammaDetectorNames (cleanupAfterLoad opts { f with records := f.records ++ [m] }).records
    rw [computeGammaDetectorNames, mem_firstSeen]
    refine List.mem_map.mpr ⟨assignSample m, List.mem_filter.mpr ⟨hrmem, ?_⟩, hrname⟩
    simp [assignSample_gammaCounts, List.isEmpty_iff, hgam]
  · exact List.ne_nil_of_mem (List.mem_filter.mpr ⟨hrmem, by simp [hrname]⟩)

/-! ### The summation engine -/

/-- Claim C2: for every non-empty selection of records sharing a compatible
energy calibration, sumMeasurements returns a record whose channel counts
are the per-channel sum of the selected records' counts, whose live and
real times are the sums of the inputs' live and real times, whose start
time is the earliest input start time, and whose detector name and sample
number are left unset. -/
theorem sumMeasurementsCorrect (f : SpecFile) (samples : List Int) (dets : List String)
    (m0 : Measurement) (rest : List Measurement)
    (hsel : matchingRecords f samples dets = m0 :: rest)
    (hcompat : ∀ m ∈ m0 :: rest, effectiveCal m = effectiveCal m0) :
    ∃ r : Measurement,
      sumMeasurements f samples dets = .ok r ∧
      (∀ c : Nat,
        r.gammaCounts.getD c 0 = ((m0 :: rest).map (fun m => m.gammaCounts.getD c 0)).sum) ∧
      r.liveTime = ((m0 :: rest).map (fun m => m.liveTime)).sum ∧
      r.realTime = ((m0 :: rest).map (fun m => m.realTime)).sum ∧
      r.startTime = earliestTime ((m0 :: rest).map (fun m => m.startTime)) ∧
      (∀ t e : Int, r.startTime = some e →
        some t ∈ (m0 :: rest).map (fun m => m.startTime) → e ≤ t) ∧
      r.detectorName = "" ∧
      r.sampleNumber = none := by
  have hall : ((m0 :: rest).all (fun m => decide (effectiveCal m = effectiveCal m0))) = true := by
    rw [List.all_eq_true]
    intro m hm
    exact decide_eq_true (hcompat m hm)
  have hok : sumMeasurements f samples dets = .ok (sumRecords (m0 :: rest) (effectiveCal m0)) := by
    unfold sumMeasurements
    rw [hsel]
    simp only [hall, if_true]
  refine ⟨sumRecords (m0 :: rest) (effectiveCal m0), hok, ?_, rfl, rfl, rfl, ?_, rfl, rfl⟩
  · intro c
    show (sumCounts ((m0 :: rest).map (fun m => m.gammaCounts))).getD c 0 = _
    rw [sumCounts_getD, List.map_map]
    rfl
  · intro t e he ht
    have he2 : earliestTime ((m0 :: rest).map (fun m => m.startTime)) = some e := he
    exact earliestTime_le ((m0 :: rest).map (fun m => m.startTime)) e t he2 ht

/-- Witness for C2: the two example records (samples 1 and 2, detector
"Aa1", both on the example calibration) sum to live time 20, real time 30,
per-channel summed counts and the earlier start time, with detector name
and sample number unset. -/
theorem sumMeasurementsCorrect_witness :
    matchingRecords exFile [1, 2] ["Aa1"] = [exMeasA, exMeasB] ∧
      ∃ r : Measurement,
        sumMeasurements exFile [1, 2] ["Aa1"] = .ok r ∧
        (∀ c : Nat,
          r.gammaCounts.getD c 0 = ([exMeasA, exMeasB].map (fun m => m.gammaCounts.getD c 0)).sum) ∧
        r.liveTime = ([exMeasA, exMeasB].map (fun m => m.liveTime)).sum ∧
        r.realTime = ([exMeasA, exMeasB].map (fun m => m.realTime)).sum ∧
        r.startTime = earliestTime ([exMeasA, exMeasB].map (fun m => m.startTime)) ∧
        (∀ t e : Int, r.startTime = some e →
          some t ∈ [exMeasA, exMeasB].map (fun m => m.startTime) → e ≤ t) ∧
        r.detectorName = "" ∧
        r.sampleNumber = none :=
  ⟨rfl,
    sumMeasurementsCorrect exFile [1, 2] ["Aa1"] exMeasA [exMeasB] rfl
      (by intro m hm; rcases List.mem_cons.mp hm with rfl | hm2; · rfl
          rcases List.mem_cons.mp hm2 with rfl | hm3; · rfl
          simp at hm3)⟩

/-- Witness for C10: adding a record that never had a detector name set to
the empty container and cleaning up records it under the empty-string
name. -/
theorem emptyDetectorNameRecorded_witness :
    "" ∈ (cleanupAfterLoad {} { emptyFile with records := emptyFile.records ++ [exMeasNoName] }).detectorNamesIdx ∧
      "" ∈ (cleanupAfterLoad {} { emptyFile with records := emptyFile.records ++ [exMeasNoName] }).gammaDetectorNamesIdx ∧
      (cleanupAfterLoad {} { emptyFile with records := emptyFile.records ++ [exMeasNoName] }).records.filter
          (fun r => decide (r.detectorName = "")) ≠ [] :=
  emptyDetectorNameRecorded emptyFile {} exMeasNoName rfl (by decide) rfl

/-! ### The N42-2012 round trip -/

theorem parseCalibration_encode (cal : EnergyCalibration) :
    parseCalibration (encodeCalibration cal) = some cal := by
  rcases cal with ⟨k, n, d⟩
  cases k <;> rfl

theorem parseSourceType_tag (st : SourceType) : parseSourceType (sourceTypeTag st) = some st := by
  cases st <;> rfl

theorem parseOccupancy_tag (o : OccupancyStatus) : parseOccupancy (occupancyTag o) = some o := by
  cases o <;> rfl

theorem parseDetectorType_tag (dt : DetectorType) :
    parseDetectorType (detectorTypeTag dt) = some dt := by
  cases dt <;> rfl

theorem parseMeasurement_encode (m : Measurement) :
    parseMeasurement (encodeMeasurement m) = some m := by
  rcases m with ⟨gc, lt, rt, nc, nlt, st, dn, sn, srcT, occ, ti, rem, pos, cal⟩
  unfold parseMeasurement encodeMeasurement
  rw [parseSourceType_tag, parseOccupancy_tag]
  cases cal with
  | none => rfl
  | some c => simp only [Option.map_some', parseCalibration_encode]; rfl

theorem parseAllMeasurements_encode (rs : List Measurement) :
    parseAllMeasurements (rs.map encodeMeasurement) = some rs := by
  induction rs with
  | nil => rfl
  | cons m ms ih =>
    show parseAllMeasurements (encodeMeasurement m :: ms.map encodeMeasurement) = some (m :: ms)
    unfold parseAllMeasurements
    rw [parseMeasurement_encode, ih]
    rfl

/-- Claim C1: for every container whose derived indices reflect its records
(the state every setter path ends in after cleanup), encoding to the
N42-2012 XML document and decoding the result back yields the container,
field for field: no field of the data model is lost in the round trip. -/
theorem n42RoundTrip (f : SpecFile) (h : derivedConsistent f) :
    parseN42 (write2012N42Xml f) = some f := by
  unfold parseN42 write2012N42Xml
  simp only [parseAllMeasurements_encode, parseDetectorType_tag]
  show some (withDerived
    { records := f.records,
      instrumentManufacturer := f.instrumentManufacturer,
      instrumentModel := f.instrumentModel,
      instrumentType := f.instrumentType,
      serialNumber := f.serialNumber,
      measurementLocationName := f.measurementLocationName,
      uuid := f.uuid,
      detectorType := f.detectorType,
      fileRemarks := f.fileRemarks }) = some f
  have h2 : withDerived
      { records := f.records,
        instrumentManufacturer := f.instrumentManufacturer,
        instrumentModel := f.instrumentModel,
        instrumentType := f.instrumentType,
        serialNumber := f.serialNumber,
        measurementLocationName := f.measurementLocationName,
        uuid := f.uuid,
        detectorType := f.detectorType,
        fileRemarks := f.fileRemarks } = withDerived f := rfl
  rw [h2, h]

theorem cleanup_derivedConsistent (opts : CleanupOptions) (f : SpecFile) :
    derivedConsistent (cleanupAfterLoad opts f) := rfl

/-- Witness for C1: the cleaned-up example container round-trips through
the N42-2012 document unchanged. -/
theorem n42RoundTrip_witness :
    derivedConsistent (cleanupAfterLoad {} exFile) ∧
      parseN42 (write2012N42Xml (cleanupAfterLoad {} exFile))
        = some (cleanupAfterLoad {} exFile) :=
  ⟨cleanup_derivedConsistent {} exFile,
    n42RoundTrip (cleanupAfterLoad {} exFile) (cleanup_derivedConsistent {} exFile)⟩

/-! ### The channel–energy inverse contract -/

theorem bisect_close :
    ∀ (k : Nat) (g : ℚ → ℚ) (e lo hi c : ℚ), lo ≤ c → c ≤ hi → g c = e →
      StrictMonoOn g (Set.Icc lo hi) →
      |bisect g e lo hi k - c| ≤ (hi - lo) / 2 ^ k := by
  intro k
  induction k with
  | zero =>
    intro g e lo hi c h1 h2 _ _
    show |(lo + hi) / 2 - c| ≤ (hi - lo) / 2 ^ 0
    rw [pow_zero, div_one, abs_le]
    constructor <;> linarith
  | succ k ih =>
    intro g e lo hi c h1 h2 hgc hmono
    have hlohi : lo ≤ hi := le_trans h1 h2
    have hlomid : lo ≤ (lo + hi) / 2 := by linarith
    have hmidhi : (lo + hi) / 2 ≤ hi := by linarith
    have hmidmem : (lo + hi) / 2 ∈ Set.Icc lo hi := Set.mem_Icc.mpr ⟨hlomid, hmidhi⟩
    have hcmem : c ∈ Set.Icc lo hi := Set.mem_Icc.mpr ⟨h1, h2⟩
    have hstep : bisect g e lo hi (k + 1) =
        if g ((lo + hi) / 2) < e then bisect g e ((lo + hi) / 2) hi k
        else if e < g ((lo + hi) / 2) then bisect g e lo ((lo + hi) / 2) k
        else (lo + hi) / 2 := rfl
    rw [hstep]
    split_ifs with hlt hgt
    · have hmc : (lo + hi) / 2 < c := by
        by_contra hcon
        push_neg at hcon
        have hle : g c ≤ g ((lo + hi) / 2) := hmono.monotoneOn hcmem hmidmem hcon
        rw [hgc] at hle
        linarith
      have hb := ih g e ((lo + hi) / 2) hi c (le_of_lt hmc) h2 hgc
        (hmono.mono (Set.Icc_subset_Icc hlomid (le_refl hi)))
      calc |bisect g e ((lo + hi) / 2) hi k - c| ≤ (hi - (lo + hi) / 2) / 2 ^ k := hb
        _ = (hi - lo) / 2 ^ (k + 1) := by
            rw [show hi - (lo + hi) / 2 = (hi - lo) / 2 by ring, div_div, pow_succ, mul_comm]
    · have hmc : c < (lo + hi) / 2 := by
        by_contra hcon
        push_neg at hcon
        have hle : g ((lo + hi) / 2) ≤ g c := hmono.monotoneOn hmidmem hcmem hcon
        rw [hgc] at hle
        linarith
      have hb := ih g e lo ((lo + hi) / 2) c h1 (le_of_lt hmc) hgc
        (hmono.mono (Set.Icc_subset_Icc (le_refl lo) hmidhi))
      calc |bisect g e lo ((lo + hi) / 2) k - c| ≤ ((lo + hi) / 2 - lo) / 2 ^ k := hb
        _ = (hi - lo) / 2 ^ (k + 1) := by
            rw [show (lo + hi) / 2 - lo = (hi - lo) / 2 by ring, div_div, pow_succ, mul_comm]
    · have heq : g ((lo + hi) / 2) = e := le_antisymm (not_lt.mp hgt) (not_lt.mp hlt)
      have hmc : (lo + hi) / 2 = c := by
        rcases lt_trichotomy ((lo + hi) / 2) c with hl | hl | hl
        · have := hmono hmidmem hcmem hl
          rw [hgc, heq] at this
          exact absurd this (lt_irrefl e)
        · exact hl
        · have := hmono hcmem hmidmem hl
          rw [hgc, heq] at this
          exact absurd this (lt_irrefl e)
      rw [hmc, sub_self, abs_zero]
      have h2k : (0 : ℚ) < 2 ^ (k + 1) := by positivity
      have : (0 : ℚ) ≤ hi - lo := by linarith
      positivity

/-- Claim C3: for every valid Polynomial or FullRangeFraction calibration
without deviation pairs that is monotonic over its channel range, and
every channel c in range, energyToChannel (channelToEnergy c) equals c
within far better than floating-point tolerance: the inversion error is at
most the channel range divided by 2^64. -/
theorem energyChannelInverse (cal : EnergyCalibration)
    (hkind : isPolynomialOrFrf cal = true)
    (hdev : cal.deviationPairs = [])
    (hmono : StrictMonoOn (channelToEnergy cal) (Set.Icc 0 (cal.numChannels : ℚ)))
    (c : ℚ) (h0 : 0 ≤ c) (hN : c ≤ (cal.numChannels : ℚ)) :
    |energyToChannel cal (channelToEnergy cal c) - c| ≤ (cal.numChannels : ℚ) / 2 ^ 64 := by
  have h := bisect_close 64 (channelToEnergy cal) (channelToEnergy cal c) 0
    (cal.numChannels : ℚ) c h0 hN rfl hmono
  rw [sub_zero] at h
  exact h

/-- The full-range-fraction calibration [0, 3000] over 18 channels of the
binding tests, without deviation pairs. -/
def exCal18 : EnergyCalibration := ⟨.fullRangeFraction [0, 3000], 18, []⟩

theorem exCal18_strictMono :
    StrictMonoOn (channelToEnergy exCal18) (Set.Icc 0 ((exCal18.numChannels : Nat) : ℚ)) := by
  intro a _ b _ hab
  show channelToEnergy exCal18 a < channelToEnergy exCal18 b
  simp only [channelToEnergy, applyDeviation, baseEnergy, exCal18, devOffset, polyEval,
    mul_zero, add_zero, zero_add]
  linarith

/-- Witness for C3: inverting the energy of channel 9 of the example
18-channel linear calibration recovers channel 9 to within the stated
tolerance. -/
theorem energyChannelInverse_witness :
    (isPolynomialOrFrf exCal18 = true ∧ exCal18.deviationPairs = [] ∧
        (0 : ℚ) ≤ 9 ∧ (9 : ℚ) ≤ (exCal18.numChannels : ℚ)) ∧
      |energyToChannel exCal18 (channelToEnergy exCal18 9) - 9|
        ≤ (exCal18.numChannels : ℚ) / 2 ^ 64 :=
  ⟨⟨rfl, rfl, by norm_num, by norm_num [exCal18]⟩,
    energyChannelInverse exCal18 rfl rfl exCal18_strictMono 9 (by norm_num)
      (by norm_num [exCal18])⟩

/-! ### The concrete gamma-query scenario -/

theorem gammaChannelLower_exMeasA : gammaChannelLower exMeasA 0 = -10 := by
  show channelToEnergy (effectiveCal exMeasA) ((0 : Nat) : ℚ) = -10
  norm_num [effectiveCal, exMeasA, exCal, channelToEnergy, applyDeviation, baseEnergy,
    polyEval, devOffset]

theorem gammaChannelUpper_exMeasA : gammaChannelUpper exMeasA 9 = 3000 := by
  show channelToEnergy (effectiveCal exMeasA) (((9 : Nat) : ℚ) + 1) = 3000
  norm_num [effectiveCal, exMeasA, exCal, channelToEnergy, applyDeviation, baseEnergy,
    polyEval, devOffset]

theorem gammaCountSum_exMeasA : gammaCountSum exMeasA = 46 := by
  norm_num [gammaCountSum, exMeasA]

/-- Counterexample for C5: on the 10-channel example record with the
full-range-fraction calibration [0, 3000] and deviation pairs
(100, -10), (1460, 15), (3000, 0), the claimed values are wrong: the lower
edge of channel 0 is -10 (the flat-clamped deviation below the first pair),
not 0, and the total count sum is 46, not 45.9. -/
theorem gammaQueriesClaimFalse :
    ¬(gammaChannelLower exMeasA 0 = 0 ∧ gammaChannelUpper exMeasA 9 = 3000 ∧
        gammaCountSum exMeasA = 459 / 10) := by
  intro h
  have h1 := h.1
  rw [gammaChannelLower_exMeasA] at h1
  norm_num at h1

/-- Claim C5 (amended): on the 10-channel example record,
gammaChannelLower 0 returns -10 (the deviation correction is clamped to the
first pair's -10 below 100 keV), gammaChannelUpper 9 returns exactly 3000
after deviation correction, and gammaCountSum returns 46. -/
theorem gammaQueriesAmended :
    gammaChannelLower exMeasA 0 = -10 ∧ gammaChannelUpper exMeasA 9 = 3000 ∧
      gammaCountSum exMeasA = 46 :=
  ⟨gammaChannelLower_exMeasA, gammaChannelUpper_exMeasA, gammaCountSum_exMeasA⟩

end SpecUtils
